import Mathlib

/-!
Verification development for the `sequential-job-worker` repository.

The repository is a TypeScript job-pipeline worker.  This file gives a
shallow embedding, in Lean 4, of the pure decision logic of its core
components, translated from the source files:

* `src/lib/run-tracker.ts` — run completion tracker (Redis atomic counters);
* `src/workers/create-run.ts` (end-run worker) — finalize-status policy;
* `src/schedulers/campaign-scheduler.ts` — admission gate: budget windows,
  volume cap, consecutive-failure circuit breaker;
* `src/lib/service-client.ts` — resilient call layer (retry / backoff /
  4xx handling, per-call no-retry override);
* `src/workers/email-send.ts` — deliver-content stage payload-success check.

Effectful code (Redis, HTTP) is embedded by explicit state passing: each
await point's external response is a parameter of the Lean function, and
the atomic Redis counters become a state record threaded through a list
of calls.  JS `number` values that the code only ever uses as integers
are modelled as `Nat`/`Int`; currency amounts (summed costs, parsed
decimal limits) are modelled as `ℚ` to mirror exact decimal arithmetic.
-/

/-! ## Definitions -/

/-- The three Redis counters kept per run (`run:<id>:total/done/failed`).
`initRunTracking` creates them, `markJobDone` mutates them atomically. -/
structure TrackerState where
  total : Nat
  done : Nat
  failed : Nat
deriving DecidableEq, Repr

/-- Snapshot returned by `markJobDone` (run-tracker.ts lines 33-54). -/
structure MarkResult where
  isLast : Bool
  total : Nat
  done : Nat
  failed : Nat
deriving DecidableEq, Repr

/-- `initRunTracking(runId, totalJobs)` (run-tracker.ts lines 18-27): sets
`total := totalJobs`, `done := 0`, `failed := 0`. -/
def initRunTracking (totalJobs : Nat) : TrackerState :=
  ⟨totalJobs, 0, 0⟩

/-- `markJobDone(runId, success)` (run-tracker.ts lines 33-54): atomically
increments `done` (and `failed` if `!success`), reads the counters and
returns the snapshot with `isLast = done >= total && total > 0`.
The Redis `INCR` is atomic, so any concurrent interleaving of calls is
some sequential order of the increments; the embedding therefore
processes a list of calls in sequence. -/
def markJobDone (st : TrackerState) (success : Bool) : MarkResult × TrackerState :=
  let done := st.done + 1
  let failed := if success then st.failed else st.failed + 1
  let isLast := decide (done ≥ st.total ∧ st.total > 0)
  (⟨isLast, st.total, done, failed⟩, ⟨st.total, done, failed⟩)

/-- The list of snapshots returned by a sequence of `markJobDone` calls
(one Bool per call: the call's `success` argument). -/
def runMarks (st : TrackerState) : List Bool → List MarkResult
  | [] => []
  | b :: bs =>
    let p := markJobDone st b
    p.1 :: runMarks p.2 bs

/-- The list of counter states after each call of a `markJobDone` sequence. -/
def trackStates (st : TrackerState) : List Bool → List TrackerState
  | [] => []
  | b :: bs =>
    let p := markJobDone st b
    p.2 :: trackStates p.2 bs

/-- The `stats` field of an end-run job envelope. -/
structure RunStats where
  total : Nat
  done : Nat
  failed : Nat
deriving DecidableEq, Repr

/-- Status computed by the end-run worker (create-run.ts, end-run worker,
line `const status = stats.failed === stats.total ? "failed" : "completed"`). -/
def endRunStatus (stats : RunStats) : String :=
  if stats.failed = stats.total then "failed" else "completed"

/-- Status computed by `finalizeRun` in run-tracker.ts (line
`const status = stats.failed === stats.total ? "failed" : "completed"`). -/
def finalizeRunStatus (stats : RunStats) : String :=
  if stats.failed = stats.total then "failed" else "completed"

/-- `startsWithList l p` holds when `p` is an initial segment of `l`
(model of JS `startsWith` on character lists). -/
def startsWithList : List Char → List Char → Bool
  | _, [] => true
  | [], _ :: _ => false
  | a :: as, b :: bs => a = b && startsWithList as bs

/-- Model of JS `message.startsWith(p)`. -/
def strStartsWith (s p : String) : Bool :=
  startsWithList s.data p.data

/-- `containsList sub l` holds when `sub` occurs contiguously inside `l`. -/
def containsList (sub : List Char) : List Char → Bool
  | [] => startsWithList [] sub
  | a :: as => startsWithList (a :: as) sub || containsList sub as

/-- Model of JS `message.includes(sub)`. -/
def includesStr (s sub : String) : Bool :=
  containsList sub.data s.data

/-- Retry-policy constants (service-client.ts). -/
def MAX_RETRIES : Nat := 3

def BASE_DELAY_MS : Nat := 500

def REQUEST_TIMEOUT_MS : Nat := 10000

/-- What one `fetch` attempt can produce, as seen by `callService`:
a response with `response.ok` (payload returned), a non-ok response
(`response.status` plus body text), or a thrown transport error — network
failure or the `AbortSignal` timeout — carrying its message. -/
inductive AttemptOutcome where
  | ok (payload : String)
  | httpError (status : Nat) (body : String)
  | transportError (msg : String)
deriving DecidableEq, Repr

/-- The error message built by `callService`:
`` `Service call failed: ${response.status} - ${error}` ``. -/
def serviceCallFailedMsg (status : Nat) (body : String) : String :=
  "Service call failed: " ++ toString status ++ " - " ++ body

/-- Per-call options relevant to the retry policy (service-client.ts
`ServiceCallOptions`): `noRetry` skips retries for non-idempotent
mutations, `timeoutMs` overrides the default request timeout. -/
structure CallOptions where
  noRetry : Bool
  timeoutMs : Option Nat
deriving DecidableEq, Repr

/-- Observable result of a `callService` invocation: the returned payload
or thrown error message, how many `fetch` attempts were made, the backoff
delays slept between attempts, and the timeout passed to `AbortSignal`. -/
structure CallTrace where
  result : Except String String
  attempts : Nat
  delays : List Nat
  timeoutUsed : Nat
deriving Repr

/-- The retry loop of `callService` (service-client.ts): attempt index
`attempt` runs while `attempt ≤ maxRetries`.  A `response.ok` returns the
payload.  A non-ok response records
`Service call failed: <status> - <body>` as `lastError`; when
`status < 500` that error is thrown, caught by the surrounding `catch`,
and re-thrown — ending the call — exactly when its message starts with
`"Service call failed: 4"`.  A thrown transport error is likewise
re-thrown only if its message starts with that prefix (never the case for
real network/timeout errors).  Otherwise, if attempts remain, the loop
sleeps `BASE_DELAY_MS * 2 ^ attempt` and retries; when attempts are
exhausted the last error is thrown. -/
def callServiceGo (outcomes : Nat → AttemptOutcome) (maxRetries : Nat)
    (attempt : Nat) (delaysAcc : List Nat) :
    Except String String × Nat × List Nat :=
  let retryOrFail (m : String) : Except String String × Nat × List Nat :=
    if h : attempt < maxRetries then
      callServiceGo outcomes maxRetries (attempt + 1)
        (delaysAcc ++ [BASE_DELAY_MS * 2 ^ attempt])
    else
      (Except.error m, attempt + 1, delaysAcc)
  match outcomes attempt with
  | AttemptOutcome.ok p => (Except.ok p, attempt + 1, delaysAcc)
  | AttemptOutcome.httpError s b =>
    let m := serviceCallFailedMsg s b
    if s < 500 then
      if strStartsWith m "Service call failed: 4" then
        (Except.error m, attempt + 1, delaysAcc)
      else retryOrFail m
    else retryOrFail m
  | AttemptOutcome.transportError m =>
    if strStartsWith m "Service call failed: 4" then
      (Except.error m, attempt + 1, delaysAcc)
    else retryOrFail m
termination_by maxRetries - attempt

/-- `callService` (service-client.ts lines 687-754): the effective retry
budget is `maxRetries = noRetry ? 0 : MAX_RETRIES` and the effective
timeout is `timeoutMs ?? REQUEST_TIMEOUT_MS`. -/
def callService (outcomes : Nat → AttemptOutcome) (opts : CallOptions) :
    CallTrace :=
  let maxRetries := if opts.noRetry then 0 else MAX_RETRIES
  let r := callServiceGo outcomes maxRetries 0 []
  ⟨r.1, r.2.1, r.2.2, opts.timeoutMs.getD REQUEST_TIMEOUT_MS⟩

/-- Default options: a plain call with no overrides. -/
def defaultCallOptions : CallOptions := ⟨false, none⟩

/-- The options `leadService.next` passes for `POST /buffer/next`
(service-client.ts: `noRetry: true`, `timeoutMs: 60_000`). -/
def leadServiceNextCallOptions : CallOptions := ⟨true, some 60000⟩

/-- An attempt outcome that `callService` retries: a 5xx (or any non-ok
response whose error message does not start with `"Service call failed: 4"`)
or a transport error / timeout. -/
def retriableOutcome : AttemptOutcome → Bool
  | AttemptOutcome.ok _ => false
  | AttemptOutcome.httpError s b =>
    !(decide (s < 500) && strStartsWith (serviceCallFailedMsg s b) "Service call failed: 4")
  | AttemptOutcome.transportError m =>
    !(strStartsWith m "Service call failed: 4")

/-- The message recorded as `lastError` for a failing attempt outcome. -/
def outcomeMessage : AttemptOutcome → String
  | AttemptOutcome.ok _ => ""
  | AttemptOutcome.httpError s b => serviceCallFailedMsg s b
  | AttemptOutcome.transportError m => m

/-- The value `callService` produces when an attempt outcome ends the loop:
the payload for an ok response, the recorded error message otherwise. -/
def outcomeResult : AttemptOutcome → Except String String
  | AttemptOutcome.ok p => Except.ok p
  | AttemptOutcome.httpError s b => Except.error (serviceCallFailedMsg s b)
  | AttemptOutcome.transportError m => Except.error m

/-- A constant outcome sequence: every attempt gets a 500 response. -/
def everyAttempt500 : Nat → AttemptOutcome :=
  fun _ => AttemptOutcome.httpError 500 "boom"

/-- The payload returned by the delivery gateway (`SendResult` in
email-send.ts): a payload-level success flag, distinct from transport
status, plus an optional error text. -/
structure SendResult where
  success : Bool
  error : Option String
deriving DecidableEq, Repr

/-- What the email-send stage handler produces for one job. -/
inductive SendJobOutcome where
  | skipped
  | sent
  | failed (msg : String)
deriving DecidableEq, Repr

/-- JS `result.error || "unknown error"`: `undefined` and the empty string
are both falsy. -/
def sendErrorText (e : Option String) : String :=
  match e with
  | none => "unknown error"
  | some s => if s = "" then "unknown error" else s

/-- The email-send stage handler (email-send.ts): skip when `toEmail` is
falsy; otherwise call the delivery gateway. A thrown call error propagates
as a job failure. On transport success the handler checks the *payload*
flag: `if (!result.success) throw new Error("Email sending service
returned failure: " + (result.error || "unknown error"))`; only a true
payload flag reports the job as sent. -/
def emailSendProcess (toEmail : String) (sendOutcome : Except String SendResult) :
    SendJobOutcome :=
  if toEmail = "" then SendJobOutcome.skipped
  else
    match sendOutcome with
    | Except.error e => SendJobOutcome.failed e
    | Except.ok result =>
      if !result.success then
        SendJobOutcome.failed
          ("Email sending service returned failure: " ++ sendErrorText result.error)
      else SendJobOutcome.sent

/-- The campaign fields the admission gate reads. -/
structure Campaign where
  maxBudgetDailyUsd : Option ℚ
  maxBudgetWeeklyUsd : Option ℚ
  maxBudgetMonthlyUsd : Option ℚ
  maxBudgetTotalUsd : Option ℚ
  maxLeads : Option Nat
  brandId : Option String
deriving DecidableEq, Repr

/-- The run fields the admission gate reads.  `totalCostInUsdCents` is the
already-parsed cost returned by the runs service's batch lookup (the
batch lookup itself is modelled as the runs carrying their costs). -/
structure Run where
  status : String
  createdAt : Int
  totalCostInUsdCents : ℚ
deriving DecidableEq, Repr

/-- A derived budget window (campaign-scheduler.ts `BudgetWindow`):
`startedAfter = none` means all time. -/
structure BudgetWindow where
  label : String
  startedAfter : Option Int
  limitUsd : ℚ
deriving DecidableEq, Repr

/-- Result of `isBudgetExceeded` (campaign-scheduler.ts
`BudgetCheckResult`). -/
structure BudgetCheckResult where
  exceeded : Bool
  which : Option String
  spendUsd : Option ℚ
  limitUsd : Option ℚ
deriving DecidableEq, Repr

/-- Result of `isVolumeExceeded` (campaign-scheduler.ts
`VolumeCheckResult`). -/
structure VolumeCheckResult where
  exceeded : Bool
  totalServed : Option Nat
  maxLeads : Option Nat
deriving DecidableEq, Repr

/-- Pause threshold for the failure streak (campaign-scheduler.ts
`MAX_CONSECUTIVE_FAILURES = 3`). -/
def MAX_CONSECUTIVE_FAILURES : Nat := 3

/-- `getBudgetWindows` (campaign-scheduler.ts lines 230-267): one window
per configured (truthy) budget field, pushed in daily, weekly, monthly,
total order, with lower bounds start-of-today, now − 7 days,
first-of-month and `null` respectively. -/
def getBudgetWindows (c : Campaign) (dayStart weekStart monthStart : Int) :
    List BudgetWindow :=
  (match c.maxBudgetDailyUsd with
    | some l => [⟨"daily", some dayStart, l⟩]
    | none => []) ++
  (match c.maxBudgetWeeklyUsd with
    | some l => [⟨"weekly", some weekStart, l⟩]
    | none => []) ++
  (match c.maxBudgetMonthlyUsd with
    | some l => [⟨"monthly", some monthStart, l⟩]
    | none => []) ++
  (match c.maxBudgetTotalUsd with
    | some l => [⟨"total", none, l⟩]
    | none => [])

/-- One step of the `windows.reduce` callback picking the broadest window:
`null` bound wins, otherwise the strictly earlier bound wins (ties keep
the right operand, as `a < b ? a : b` does). -/
def pickBroadest (a b : BudgetWindow) : BudgetWindow :=
  match a.startedAfter, b.startedAfter with
  | none, _ => a
  | some _, none => b
  | some x, some y => if x < y then a else b

/-- `windows.reduce(pickBroadest)`: the accumulator starts at the first
element and folds over the rest. -/
def reduceBroadest (w : BudgetWindow) (ws : List BudgetWindow) : BudgetWindow :=
  ws.foldl pickBroadest w

/-- `new Date(run.createdAt) >= window.startedAfter` (with a `null` bound
meaning all time). -/
def inWindow (w : BudgetWindow) (r : Run) : Bool :=
  match w.startedAfter with
  | none => true
  | some t => decide (t ≤ r.createdAt)

/-- The inner loop of `isBudgetExceeded` summing `spendCents` over the
runs that fall inside the given window. -/
def windowSpendCents (w : BudgetWindow) (runs : List Run) : ℚ :=
  runs.foldl (fun acc r => if inWindow w r then acc + r.totalCostInUsdCents else acc) 0

/-- The `for (const window of windows)` loop of `isBudgetExceeded`:
returns on the first window whose in-window spend (in USD) reaches its
limit. -/
def checkWindows (runs : List Run) : List BudgetWindow → BudgetCheckResult
  | [] => ⟨false, none, none, none⟩
  | w :: ws =>
    let spendUsd := windowSpendCents w runs / 100
    if spendUsd ≥ w.limitUsd then ⟨true, some w.label, some spendUsd, some w.limitUsd⟩
    else checkWindows runs ws

/-- `isBudgetExceeded` (campaign-scheduler.ts lines 269-320): no windows
configured fails closed with a synthetic exceeded-`total` result; the runs
are pre-filtered to the broadest window before the cost lookup; an empty
filtered list short-circuits to not-exceeded; otherwise each window is
checked in order. -/
def isBudgetExceeded (c : Campaign) (dayStart weekStart monthStart : Int)
    (allRuns : List Run) : BudgetCheckResult :=
  match getBudgetWindows c dayStart weekStart monthStart with
  | [] => ⟨true, some "total", some 0, some 0⟩
  | w :: ws =>
    let broadest := reduceBroadest w ws
    let runsInWindow :=
      match broadest.startedAfter with
      | none => allRuns
      | some t => allRuns.filter (fun r => decide (t ≤ r.createdAt))
    if runsInWindow.length = 0 then ⟨false, none, none, none⟩
    else checkWindows runsInWindow (w :: ws)

/-- `countConsecutiveFailures` (campaign-scheduler.ts lines 217-228):
newest-first scan; `running` entries are skipped, `failed` entries are
counted, the first other entry breaks the streak. -/
def countConsecutiveFailures : List Run → Nat
  | [] => 0
  | r :: rs =>
    if r.status = "running" then countConsecutiveFailures rs
    else if r.status = "failed" then countConsecutiveFailures rs + 1
    else 0

/-- `isVolumeExceeded` (campaign-scheduler.ts lines 328-364).  A falsy
`maxLeads` (absent or 0) or falsy `brandId` (absent or empty) means never
exceeded.  `statsOutcome` is the lead-service stats call: `Except.ok n`
models a response whose served-count field (read as `stats.totalServed`)
is `n`; `Except.error e` models a thrown call error with message `e`.
On success the served count is `Math.max` of the reported count and the
campaign's completed-run count; a message containing
`"Service call failed: 404"` falls back to the completed-run count; any
other error fails closed. -/
def isVolumeExceeded (c : Campaign) (runs : List Run)
    (statsOutcome : Except String Nat) : VolumeCheckResult :=
  match c.maxLeads, c.brandId with
  | some maxLeads, some brandId =>
    if maxLeads = 0 ∨ brandId = "" then ⟨false, none, none⟩
    else
      let completedRunCount := (runs.filter (fun r => r.status = "completed")).length
      match statsOutcome with
      | Except.ok served =>
        let totalServed := Nat.max served completedRunCount
        if totalServed ≥ maxLeads then ⟨true, some totalServed, some maxLeads⟩
        else ⟨false, some totalServed, some maxLeads⟩
      | Except.error e =>
        if includesStr e "Service call failed: 404" then
          if completedRunCount ≥ maxLeads then ⟨true, some completedRunCount, some maxLeads⟩
          else ⟨false, some completedRunCount, some maxLeads⟩
        else ⟨true, some 0, some maxLeads⟩
  | _, _ => ⟨false, none, none⟩

/-- Outcome of one admission decision: whether to enqueue a run, whether a
run was still running, and whether the scheduler requests the campaign's
status be set to `stopped` (the `updateCampaign(..., { status: "stopped" })`
call). -/
structure Decision where
  shouldRun : Bool
  hasRunningRun : Bool
  stopCampaign : Bool
deriving DecidableEq, Repr

/-- The decision core of `shouldRunCampaign` (campaign-scheduler.ts lines
129-211), after stale-run reclamation and the re-fetch: with a running run
admission is refused without evaluating budget or volume; otherwise budget,
then volume, then the consecutive-failure streak are checked in order.
The campaign is auto-stopped when the exceeded budget window is `"total"`,
when volume is exceeded, or when the failure streak reaches
`MAX_CONSECUTIVE_FAILURES`. -/
def shouldRunCampaignDecision (c : Campaign) (dayStart weekStart monthStart : Int)
    (runs : List Run) (statsOutcome : Except String Nat) : Decision :=
  let hasRunningRun := runs.any (fun r => r.status = "running")
  if hasRunningRun then ⟨false, true, false⟩
  else
    let budgetResult := isBudgetExceeded c dayStart weekStart monthStart runs
    if budgetResult.exceeded then
      ⟨false, false, decide (budgetResult.which = some "total")⟩
    else
      let volumeResult := isVolumeExceeded c runs statsOutcome
      if volumeResult.exceeded then ⟨false, false, true⟩
      else if countConsecutiveFailures runs ≥ MAX_CONSECUTIVE_FAILURES then
        ⟨false, false, true⟩
      else ⟨true, false, false⟩

/-- Spec-side window spend: "sum the cost of runs whose creation time
falls inside that window", over the whole run history, in USD. -/
def specWindowSpendUsd (w : BudgetWindow) (runs : List Run) : ℚ :=
  (((runs.filter (fun r => inWindow w r)).map
    (fun r => r.totalCostInUsdCents)).sum) / 100

/-- Spec-side failure streak: "the number of consecutive `failed` entries
counted from the newest run backward, skipping `running` entries and
stopping at the first non-failed terminal entry". -/
def specConsecutiveFailures (runs : List Run) : Nat :=
  ((runs.filter (fun r => r.status ≠ "running")).takeWhile
    (fun r => r.status = "failed")).length

/-- Ordering of optional window lower bounds, `none` being "all time". -/
def boundLE (a b : Option Int) : Prop :=
  match a, b with
  | none, _ => True
  | some _, none => False
  | some x, some y => x ≤ y

/-- A campaign whose only budget field is a configured `"0.00"` daily limit. -/
def campaignZeroDaily : Campaign :=
  ⟨some 0, none, none, none, none, none⟩

/-- A campaign with a configured `"5.00"` daily limit only. -/
def campaignFiveDaily : Campaign :=
  ⟨some 5, none, none, none, none, none⟩

/-- A run created today (at time 1 ≥ `dayStart` 0) costing 600 cents. -/
def runSixHundredCents : Run := ⟨"completed", 1, 600⟩

/-- A campaign with only a daily budget limit of `10`. -/
def campaignTenDaily : Campaign :=
  ⟨some 10, none, none, none, none, none⟩

/-- A failed run created before the day window opens. -/
def oldFailedRun : Run := ⟨"failed", 0, 0⟩

/-- A completed run created before the day window opens. -/
def oldCompletedRun : Run := ⟨"completed", 0, 0⟩

/-- A campaign with volume cap 5 and brand id `"b"` (no budget fields
needed for the volume check). -/
def campaignCapFive : Campaign :=
  ⟨none, none, none, none, some 5, some "b"⟩

/-- Five completed runs. -/
def fiveCompletedRuns : List Run := List.replicate 5 ⟨"completed", 0, 0⟩

/-! ## Theorems -/

theorem markJobDone_fst (st : TrackerState) (b : Bool) :
    (markJobDone st b).1 =
      ⟨decide (st.done + 1 ≥ st.total ∧ st.total > 0), st.total, st.done + 1,
        if b then st.failed else st.failed + 1⟩ := by
  cases b <;> rfl

theorem markJobDone_snd (st : TrackerState) (b : Bool) :
    (markJobDone st b).2 =
      ⟨st.total, st.done + 1, if b then st.failed else st.failed + 1⟩ := by
  cases b <;> rfl

theorem runMarks_length (st : TrackerState) (bs : List Bool) :
    (runMarks st bs).length = bs.length := by
  induction bs generalizing st with
  | nil => rfl
  | cons b bs ih => simp [runMarks, ih]

/-- Every snapshot produced from a state whose remaining capacity covers the
whole call list satisfies: `isLast` holds exactly when the snapshot shows
`done = total`. -/
theorem runMarks_isLast_iff (st : TrackerState) (bs : List Bool)
    (hcap : st.done + bs.length ≤ st.total) :
    ∀ r ∈ runMarks st bs, (r.isLast = true ↔ r.done = r.total) := by
  induction bs generalizing st with
  | nil => intro r hr; cases hr
  | cons b bs ih =>
    intro r hr
    have hstep : runMarks st (b :: bs) =
        (markJobDone st b).1 :: runMarks (markJobDone st b).2 bs := rfl
    rw [hstep, List.mem_cons] at hr
    have hle : st.done + 1 + bs.length ≤ st.total := by
      simp [List.length_cons] at hcap; omega
    rcases hr with hr | hr
    · subst hr
      rw [markJobDone_fst]
      simp only [decide_eq_true_eq]
      omega
    · have hcap' : (markJobDone st b).2.done + bs.length ≤ (markJobDone st b).2.total := by
        rw [markJobDone_snd]; exact hle
      exact ih (markJobDone st b).2 hcap' r hr

/-- When the calls exactly exhaust the expected total (starting strictly
below it), exactly one snapshot has `isLast = true`. -/
theorem runMarks_countP_isLast (st : TrackerState) (bs : List Bool)
    (hlt : st.done < st.total) (hfill : st.done + bs.length = st.total) :
    (runMarks st bs).countP (fun r => r.isLast) = 1 := by
  induction bs generalizing st with
  | nil =>
    exfalso
    simp at hfill
    omega
  | cons b bs ih =>
    have hstep : runMarks st (b :: bs) =
        (markJobDone st b).1 :: runMarks (markJobDone st b).2 bs := rfl
    rw [hstep, List.countP_cons]
    cases bs with
    | nil =>
      have hdone : st.done + 1 = st.total := by
        simp [List.length_cons] at hfill; omega
      have hlast : (markJobDone st b).1.isLast = true := by
        rw [markJobDone_fst]
        simp only [decide_eq_true_eq]
        omega
      simp [runMarks, hlast]
    | cons b' bs' =>
      have hlen : st.done + 1 + (b' :: bs').length = st.total := by
        simp [List.length_cons] at hfill ⊢; omega
      have hlt' : st.done + 1 < st.total := by
        simp [List.length_cons] at hlen; omega
      have hfirst : (markJobDone st b).1.isLast = false := by
        rw [markJobDone_fst]
        simp only [decide_eq_false_iff_not]
        omega
      have hrec :
          (runMarks (markJobDone st b).2 (b' :: bs')).countP (fun r => r.isLast) = 1 := by
        apply ih
        · rw [markJobDone_snd]; exact hlt'
        · rw [markJobDone_snd]; exact hlen
      simp [hfirst, hrec]

/-- All intermediate tracker states keep `done ≤ total` and `failed ≤ done`
as long as the number of calls does not exceed the remaining capacity. -/
theorem trackStates_invariant (st : TrackerState) (bs : List Bool)
    (hcap : st.done + bs.length ≤ st.total) (hfd : st.failed ≤ st.done) :
    ∀ s ∈ trackStates st bs, s.done ≤ s.total ∧ s.failed ≤ s.done := by
  induction bs generalizing st with
  | nil => intro s hs; cases hs
  | cons b bs ih =>
    intro s hs
    have hstep : trackStates st (b :: bs) =
        (markJobDone st b).2 :: trackStates (markJobDone st b).2 bs := rfl
    rw [hstep, List.mem_cons] at hs
    have hlen : st.done + (bs.length + 1) ≤ st.total := by
      simp [List.length_cons] at hcap; omega
    rcases hs with hs | hs
    · subst hs
      rw [markJobDone_snd]
      cases b <;> simp <;> omega
    · apply ih (markJobDone st b).2 _ _ s hs
      · rw [markJobDone_snd]; simp; omega
      · rw [markJobDone_snd]; cases b <;> simp <;> omega

/-- **C1.** For a run initialized with expected total `N > 0`, a sequence of
exactly `N` `markJobDone` calls (each with an arbitrary success flag, in any
order) yields `isLast = true` on exactly one call — the call whose snapshot
shows `done = total` — and `isLast = false` on every other call. -/
theorem c1_markJobDone_isLast_exactly_once (N : Nat) (bs : List Bool)
    (hN : 0 < N) (hlen : bs.length = N) :
    (runMarks (initRunTracking N) bs).countP (fun r => r.isLast) = 1 ∧
    ∀ r ∈ runMarks (initRunTracking N) bs, (r.isLast = true ↔ r.done = r.total) := by
  constructor
  · exact runMarks_countP_isLast (initRunTracking N) bs
      (by simpa [initRunTracking] using hN) (by simp [initRunTracking, hlen])
  · exact runMarks_isLast_iff (initRunTracking N) bs (by simp [initRunTracking, hlen])

/-- Witness for C1 at `N = 2`, calls `[false, true]`. -/
theorem c1_markJobDone_isLast_exactly_once_witness :
    (runMarks (initRunTracking 2) [false, true]).countP (fun r => r.isLast) = 1 :=
  (c1_markJobDone_isLast_exactly_once 2 [false, true] (by decide) rfl).1

/-- **C2.** The finalize step (both the end-run worker and
`finalizeRun` in run-tracker.ts) sets the run's terminal status to
`"failed"` exactly when `failed = total` — including the degenerate case
`total = 0` — and to `"completed"` in every other case. -/
theorem c2_finalize_status (stats : RunStats) :
    endRunStatus stats = finalizeRunStatus stats ∧
    (endRunStatus stats = "failed" ↔ stats.failed = stats.total) ∧
    (endRunStatus stats = "completed" ↔ ¬ stats.failed = stats.total) ∧
    (stats.total = 0 → stats.failed = 0 → endRunStatus stats = "failed") := by
  refine ⟨rfl, ?_, ?_, ?_⟩
  · unfold endRunStatus
    by_cases h : stats.failed = stats.total <;> simp [h]
  · unfold endRunStatus
    by_cases h : stats.failed = stats.total <;> simp [h]
  · intro h0 hf
    unfold endRunStatus
    simp [h0, hf]

/-- **C8.** After `initRunTracking` with expected total `N` and any sequence
of `markJobDone` calls arising from that run's sub-jobs (at most `N` calls,
one per sub-job), every intermediate counter state — the initial one
included — satisfies `done ≤ total` and `failed ≤ done`. -/
theorem c8_tracker_counter_invariant (N : Nat) (bs : List Bool)
    (hlen : bs.length ≤ N) :
    ((initRunTracking N).done ≤ (initRunTracking N).total ∧
      (initRunTracking N).failed ≤ (initRunTracking N).done) ∧
    ∀ s ∈ trackStates (initRunTracking N) bs, s.done ≤ s.total ∧ s.failed ≤ s.done := by
  constructor
  · exact ⟨Nat.zero_le _, Nat.le_refl _⟩
  · exact trackStates_invariant (initRunTracking N) bs
      (by simpa [initRunTracking] using hlen) (Nat.le_refl _)

/-- Witness for C8 at `N = 2`, calls `[true, false]`: the final state
`⟨2, 2, 1⟩` satisfies the invariant. -/
theorem c8_tracker_counter_invariant_witness :
    (⟨2, 2, 1⟩ : TrackerState).done ≤ (⟨2, 2, 1⟩ : TrackerState).total ∧
    (⟨2, 2, 1⟩ : TrackerState).failed ≤ (⟨2, 2, 1⟩ : TrackerState).done :=
  (c8_tracker_counter_invariant 2 [true, false] (by decide)).2 ⟨2, 2, 1⟩ (by decide)

theorem startsWithList_append (p l q : List Char) :
    startsWithList (p ++ l) (p ++ q) = startsWithList l q := by
  induction p with
  | nil => rfl
  | cons a as ih => simp [startsWithList, ih]

theorem startsWithList_extend (l m p : List Char)
    (h : startsWithList l p = true) : startsWithList (l ++ m) p = true := by
  induction p generalizing l with
  | nil => cases hlm : l ++ m <;> simp [startsWithList]
  | cons c cs ih =>
    cases l with
    | nil => exact absurd h (by simp [startsWithList])
    | cons a as =>
      simp only [startsWithList, Bool.and_eq_true] at h
      simp only [List.cons_append, startsWithList, Bool.and_eq_true]
      exact ⟨h.1, ih as h.2⟩

set_option maxRecDepth 4000 in
theorem natRepr_400s_starts_with_4 :
    ∀ s : Nat, s < 500 → 400 ≤ s → startsWithList (Nat.repr s).data ['4'] = true := by
  decide

/-- The error message built for a 4xx response starts with
`"Service call failed: 4"`, whatever the body text is. -/
theorem serviceCallFailedMsg_4xx (s : Nat) (b : String)
    (h4 : 400 ≤ s) (h5 : s < 500) :
    strStartsWith (serviceCallFailedMsg s b) "Service call failed: 4" = true := by
  have hdata : (serviceCallFailedMsg s b).data =
      "Service call failed: ".data ++ ((Nat.repr s).data ++ (" - " ++ b).data) := by
    simp [serviceCallFailedMsg, String.data_append, List.append_assoc]
    rfl
  have hpre : ("Service call failed: 4" : String).data =
      "Service call failed: ".data ++ ['4'] := by decide
  unfold strStartsWith
  rw [hdata, hpre, startsWithList_append]
  exact startsWithList_extend _ _ _ (natRepr_400s_starts_with_4 s h5 h4)

/-- The loop stops at the first non-retriable attempt outcome `i`, having
slept the doubling backoff delays for attempts `a, …, i-1`. -/
theorem callServiceGo_stops (outcomes : Nat → AttemptOutcome) (mr i : Nat) :
    ∀ k a d, i = a + k → i ≤ mr →
    (∀ j, a ≤ j → j < i → retriableOutcome (outcomes j) = true) →
    retriableOutcome (outcomes i) = false →
    callServiceGo outcomes mr a d =
      (outcomeResult (outcomes i), i + 1,
        d ++ (List.range' a k).map (fun t => BASE_DELAY_MS * 2 ^ t)) := by
  intro k
  induction k with
  | zero =>
    intro a d hia _ _ hstop
    have ha : i = a := by omega
    subst ha
    rw [callServiceGo]
    cases h : outcomes i with
    | ok p => simp [outcomeResult, h]
    | httpError s b =>
      rw [h] at hstop
      simp only [retriableOutcome, Bool.not_eq_false', Bool.and_eq_true,
        decide_eq_true_eq] at hstop
      simp [hstop.1, hstop.2, outcomeResult, h]
    | transportError m =>
      rw [h] at hstop
      simp only [retriableOutcome, Bool.not_eq_false'] at hstop
      simp [hstop, outcomeResult, h]
  | succ k ih =>
    intro a d hik himr hret hstop
    have halt : a < mr := by omega
    have hra : retriableOutcome (outcomes a) = true := hret a le_rfl (by omega)
    have hrec := ih (a + 1) (d ++ [BASE_DELAY_MS * 2 ^ a]) (by omega) himr
      (fun j h1 h2 => hret j (by omega) h2) hstop
    have hdel : (d ++ [BASE_DELAY_MS * 2 ^ a]) ++
        (List.range' (a + 1) k).map (fun t => BASE_DELAY_MS * 2 ^ t) =
        d ++ (List.range' a (k + 1)).map (fun t => BASE_DELAY_MS * 2 ^ t) := by
      rw [List.range'_succ, List.map_cons, List.append_assoc, List.singleton_append]
    rw [callServiceGo]
    cases h : outcomes a with
    | ok p =>
      rw [h] at hra
      exact absurd hra (by simp [retriableOutcome])
    | httpError s b =>
      rw [h] at hra
      simp only [retriableOutcome, Bool.not_eq_true', Bool.and_eq_false_iff,
        decide_eq_false_iff_not] at hra
      by_cases h5 : s < 500
      · have hsw : strStartsWith (serviceCallFailedMsg s b) "Service call failed: 4" = false := by
          rcases hra with hra | hra
          · exact absurd h5 hra
          · exact hra
        simp only [h5, if_true, hsw, Bool.false_eq_true, if_false]
        rw [dif_pos halt, hrec, hdel]
      · simp only [h5, if_false]
        rw [dif_pos halt, hrec, hdel]
    | transportError m =>
      rw [h] at hra
      simp only [retriableOutcome, Bool.not_eq_true'] at hra
      simp only [hra, Bool.false_eq_true, if_false]
      rw [dif_pos halt, hrec, hdel]

/-- When every attempt in the budget fails retriably, the loop exhausts its
attempts and throws the last error. -/
theorem callServiceGo_exhausts (outcomes : Nat → AttemptOutcome) (mr : Nat) :
    ∀ k a d, mr = a + k →
    (∀ j, a ≤ j → j ≤ mr → retriableOutcome (outcomes j) = true) →
    callServiceGo outcomes mr a d =
      (Except.error (outcomeMessage (outcomes mr)), mr + 1,
        d ++ (List.range' a k).map (fun t => BASE_DELAY_MS * 2 ^ t)) := by
  intro k
  induction k with
  | zero =>
    intro a d hma hret
    have ha : mr = a := by omega
    subst ha
    have hra : retriableOutcome (outcomes mr) = true := hret mr le_rfl le_rfl
    rw [callServiceGo]
    cases h : outcomes mr with
    | ok p =>
      rw [h] at hra
      exact absurd hra (by simp [retriableOutcome])
    | httpError s b =>
      rw [h] at hra
      simp only [retriableOutcome, Bool.not_eq_true', Bool.and_eq_false_iff,
        decide_eq_false_iff_not] at hra
      by_cases h5 : s < 500
      · have hsw : strStartsWith (serviceCallFailedMsg s b) "Service call failed: 4" = false := by
          rcases hra with hra | hra
          · exact absurd h5 hra
          · exact hra
        simp only [h5, if_true, hsw, Bool.false_eq_true, if_false]
        rw [dif_neg (lt_irrefl mr)]
        simp [outcomeMessage, h]
      · simp only [h5, if_false]
        rw [dif_neg (lt_irrefl mr)]
        simp [outcomeMessage, h]
    | transportError m =>
      rw [h] at hra
      simp only [retriableOutcome, Bool.not_eq_true'] at hra
      simp only [hra, Bool.false_eq_true, if_false]
      rw [dif_neg (lt_irrefl mr)]
      simp [outcomeMessage, h]
  | succ k ih =>
    intro a d hma hret
    have halt : a < mr := by omega
    have hra : retriableOutcome (outcomes a) = true := hret a le_rfl (by omega)
    have hrec := ih (a + 1) (d ++ [BASE_DELAY_MS * 2 ^ a]) (by omega)
      (fun j h1 h2 => hret j (by omega) h2)
    have hdel : (d ++ [BASE_DELAY_MS * 2 ^ a]) ++
        (List.range' (a + 1) k).map (fun t => BASE_DELAY_MS * 2 ^ t) =
        d ++ (List.range' a (k + 1)).map (fun t => BASE_DELAY_MS * 2 ^ t) := by
      rw [List.range'_succ, List.map_cons, List.append_assoc, List.singleton_append]
    rw [callServiceGo]
    cases h : outcomes a with
    | ok p =>
      rw [h] at hra
      exact absurd hra (by simp [retriableOutcome])
    | httpError s b =>
      rw [h] at hra
      simp only [retriableOutcome, Bool.not_eq_true', Bool.and_eq_false_iff,
        decide_eq_false_iff_not] at hra
      by_cases h5 : s < 500
      · have hsw : strStartsWith (serviceCallFailedMsg s b) "Service call failed: 4" = false := by
          rcases hra with hra | hra
          · exact absurd h5 hra
          · exact hra
        simp only [h5, if_true, hsw, Bool.false_eq_true, if_false]
        rw [dif_pos halt, hrec, hdel]
      · simp only [h5, if_false]
        rw [dif_pos halt, hrec, hdel]
    | transportError m =>
      rw [h] at hra
      simp only [retriableOutcome, Bool.not_eq_true'] at hra
      simp only [hra, Bool.false_eq_true, if_false]
      rw [dif_pos halt, hrec, hdel]

/-- The loop makes between one and `maxRetries + 1` attempts, and the slept
delays are exactly the doubling backoff for the retries it performed. -/
theorem callServiceGo_attempts_delays (outcomes : Nat → AttemptOutcome) (mr : Nat) :
    ∀ k a d, mr = a + k →
    let r := callServiceGo outcomes mr a d
    (a + 1 ≤ r.2.1 ∧ r.2.1 ≤ mr + 1) ∧
    r.2.2 = d ++ (List.range' a (r.2.1 - 1 - a)).map (fun t => BASE_DELAY_MS * 2 ^ t) := by
  intro k
  induction k with
  | zero =>
    intro a d hma
    have ha : mr = a := by omega
    subst ha
    rw [callServiceGo]
    cases h : outcomes mr with
    | ok p => simp
    | httpError s b =>
      by_cases h5 : s < 500
      · by_cases hsw : strStartsWith (serviceCallFailedMsg s b) "Service call failed: 4" = true
        · simp [h5, hsw]
        · simp only [h5, if_true, hsw, Bool.false_eq_true, if_false]
          rw [dif_neg (lt_irrefl mr)]
          simp
      · simp only [h5, if_false]
        rw [dif_neg (lt_irrefl mr)]
        simp
    | transportError m =>
      by_cases hsw : strStartsWith m "Service call failed: 4" = true
      · simp [hsw]
      · simp only [hsw, Bool.false_eq_true, if_false]
        rw [dif_neg (lt_irrefl mr)]
        simp
  | succ k ih =>
    intro a d hma
    have halt : a < mr := by omega
    have hrec := ih (a + 1) (d ++ [BASE_DELAY_MS * 2 ^ a]) (by omega)
    have hstep : ∀ r2 : Nat, a + 1 + 1 ≤ r2 →
        (d ++ [BASE_DELAY_MS * 2 ^ a]) ++
          (List.range' (a + 1) (r2 - 1 - (a + 1))).map (fun t => BASE_DELAY_MS * 2 ^ t) =
        d ++ (List.range' a (r2 - 1 - a)).map (fun t => BASE_DELAY_MS * 2 ^ t) := by
      intro r2 hr2
      have hn : r2 - 1 - a = (r2 - 1 - (a + 1)) + 1 := by omega
      rw [hn, List.range'_succ, List.map_cons, List.append_assoc, List.singleton_append]
    rw [callServiceGo]
    cases h : outcomes a with
    | ok p => simp; omega
    | httpError s b =>
      by_cases h5 : s < 500
      · by_cases hsw : strStartsWith (serviceCallFailedMsg s b) "Service call failed: 4" = true
        · simp [h5, hsw]; omega
        · simp only [h5, if_true, hsw, Bool.false_eq_true, if_false]
          rw [dif_pos halt]
          refine ⟨⟨by omega, hrec.1.2⟩, ?_⟩
          rw [hrec.2, hstep _ hrec.1.1]
      · simp only [h5, if_false]
        rw [dif_pos halt]
        refine ⟨⟨by omega, hrec.1.2⟩, ?_⟩
        rw [hrec.2, hstep _ hrec.1.1]
    | transportError m =>
      by_cases hsw : strStartsWith m "Service call failed: 4" = true
      · simp [hsw]; omega
      · simp only [hsw, Bool.false_eq_true, if_false]
        rw [dif_pos halt]
        refine ⟨⟨by omega, hrec.1.2⟩, ?_⟩
        rw [hrec.2, hstep _ hrec.1.1]

/-- **C9.** For every outbound service call (default options): a 4xx
response is never retried — as soon as an attempt returns 4xx, with only
retriable failures before it, the call stops right there and surfaces the
error — while transport errors, timeouts and 5xx responses are retried up
to `MAX_RETRIES` additional attempts, each retry preceded by a backoff
delay `BASE_DELAY_MS * 2 ^ attempt` that doubles on each successive
attempt, the last error being thrown when attempts are exhausted. -/
theorem c9_callService_retry_policy (outcomes : Nat → AttemptOutcome) :
    (1 ≤ (callService outcomes defaultCallOptions).attempts ∧
      (callService outcomes defaultCallOptions).attempts ≤ MAX_RETRIES + 1) ∧
    (callService outcomes defaultCallOptions).delays =
      (List.range' 0 ((callService outcomes defaultCallOptions).attempts - 1)).map
        (fun t => BASE_DELAY_MS * 2 ^ t) ∧
    (∀ i s b, i ≤ MAX_RETRIES →
      (∀ j, j < i → retriableOutcome (outcomes j) = true) →
      outcomes i = AttemptOutcome.httpError s b → 400 ≤ s → s < 500 →
      (callService outcomes defaultCallOptions).attempts = i + 1 ∧
      (callService outcomes defaultCallOptions).result =
        Except.error (serviceCallFailedMsg s b)) ∧
    ((∀ j, j ≤ MAX_RETRIES → retriableOutcome (outcomes j) = true) →
      (callService outcomes defaultCallOptions).attempts = MAX_RETRIES + 1 ∧
      (callService outcomes defaultCallOptions).result =
        Except.error (outcomeMessage (outcomes MAX_RETRIES))) := by
  have hb := callServiceGo_attempts_delays outcomes MAX_RETRIES MAX_RETRIES 0 [] rfl
  refine ⟨⟨?_, ?_⟩, ?_, ?_, ?_⟩
  · exact hb.1.1
  · exact hb.1.2
  · have := hb.2
    simpa [callService, defaultCallOptions] using this
  · intro i s b hi hprev hout h4 h5
    have hstop : retriableOutcome (outcomes i) = false := by
      rw [hout]
      simp only [retriableOutcome, Bool.not_eq_false', Bool.and_eq_true, decide_eq_true_eq]
      exact ⟨h5, serviceCallFailedMsg_4xx s b h4 h5⟩
    have h := callServiceGo_stops outcomes MAX_RETRIES i i 0 [] (by omega) hi
      (fun j _ hj => hprev j hj) hstop
    constructor
    · show (callServiceGo outcomes MAX_RETRIES 0 []).2.1 = i + 1
      rw [h]
    · show (callServiceGo outcomes MAX_RETRIES 0 []).1 = _
      rw [h, hout]
      rfl
  · intro hret
    have h := callServiceGo_exhausts outcomes MAX_RETRIES MAX_RETRIES 0 [] rfl
      (fun j _ hj => hret j hj)
    constructor
    · show (callServiceGo outcomes MAX_RETRIES 0 []).2.1 = MAX_RETRIES + 1
      rw [h]
    · show (callServiceGo outcomes MAX_RETRIES 0 []).1 = _
      rw [h]

/-- Witness for C9: with a 500 response on every attempt, the call makes
`MAX_RETRIES + 1 = 4` attempts and throws the last error. -/
theorem c9_callService_retry_policy_witness :
    (callService everyAttempt500 defaultCallOptions).attempts = 4 ∧
    (callService everyAttempt500 defaultCallOptions).result =
      Except.error "Service call failed: 500 - boom" := by
  have h := (c9_callService_retry_policy everyAttempt500).2.2.2 (fun j _ => rfl)
  exact ⟨h.1, h.2⟩

/-- **C7.** `leadService.next` — the call that consumes one lead from the
buffer — is never retried by the resilient call layer: whatever the attempt
outcomes, it performs exactly one attempt with no backoff sleeps, and it
runs with a 60 s timeout, strictly longer than the 10 s default request
timeout. -/
theorem c7_leadService_next_single_attempt (outcomes : Nat → AttemptOutcome) :
    (callService outcomes leadServiceNextCallOptions).attempts = 1 ∧
    (callService outcomes leadServiceNextCallOptions).delays = [] ∧
    (callService outcomes leadServiceNextCallOptions).timeoutUsed = 60000 ∧
    REQUEST_TIMEOUT_MS < (callService outcomes leadServiceNextCallOptions).timeoutUsed := by
  have h21 : (callServiceGo outcomes 0 0 []).2.1 = 1 := by
    rw [callServiceGo]
    cases h : outcomes 0 <;> simp [h]
  have h22 : (callServiceGo outcomes 0 0 []).2.2 = [] := by
    rw [callServiceGo]
    cases h : outcomes 0 <;> simp [h]
  refine ⟨?_, ?_, rfl, ?_⟩
  · simpa [callService, leadServiceNextCallOptions] using h21
  · simpa [callService, leadServiceNextCallOptions] using h22
  · simp [callService, leadServiceNextCallOptions, REQUEST_TIMEOUT_MS]

/-- **C6.** When the delivery gateway responds with transport success but a
payload whose success flag is false and whose error field is a non-empty
text `e`, the deliver-content stage treats the delivery as a failure —
never reporting the job as sent — and propagates an error message that
contains `e` (it is literally the fixed prefix followed by `e`). -/
theorem c6_payload_failure_propagates (toEmail e : String)
    (hto : toEmail ≠ "") (he : e ≠ "") :
    emailSendProcess toEmail (Except.ok ⟨false, some e⟩) =
      SendJobOutcome.failed ("Email sending service returned failure: " ++ e) ∧
    emailSendProcess toEmail (Except.ok ⟨false, some e⟩) ≠ SendJobOutcome.sent := by
  constructor
  · simp [emailSendProcess, hto, sendErrorText, he]
  · simp [emailSendProcess, hto, sendErrorText, he]

/-- Witness for C6 at `toEmail = "lead@example.com"`, error text `"X"`. -/
theorem c6_payload_failure_propagates_witness :
    emailSendProcess "lead@example.com" (Except.ok ⟨false, some "X"⟩) =
      SendJobOutcome.failed ("Email sending service returned failure: " ++ "X") :=
  (c6_payload_failure_propagates "lead@example.com" "X" (by decide) (by decide)).1

theorem boundLE_refl (a : Option Int) : boundLE a a := by
  cases a <;> simp [boundLE]

theorem boundLE_trans {a b c : Option Int} (h1 : boundLE a b) (h2 : boundLE b c) :
    boundLE a c := by
  cases a <;> cases b <;> cases c <;> simp_all [boundLE]
  omega

theorem pickBroadest_cases (a b : BudgetWindow) :
    pickBroadest a b = a ∨ pickBroadest a b = b := by
  unfold pickBroadest
  rcases ha : a.startedAfter with _ | x <;> rcases hb : b.startedAfter with _ | y
  · left; rfl
  · left; rfl
  · right; rfl
  · by_cases h : x < y
    · left; simp [h]
    · right; simp [h]

theorem pickBroadest_le_left (a b : BudgetWindow) :
    boundLE (pickBroadest a b).startedAfter a.startedAfter := by
  unfold pickBroadest
  rcases ha : a.startedAfter with _ | x <;> rcases hb : b.startedAfter with _ | y <;>
    simp [boundLE, ha, hb]
  by_cases h : x < y
  · simp [h, ha, boundLE]
  · simp [h, hb, boundLE]; omega

theorem pickBroadest_le_right (a b : BudgetWindow) :
    boundLE (pickBroadest a b).startedAfter b.startedAfter := by
  unfold pickBroadest
  rcases ha : a.startedAfter with _ | x <;> rcases hb : b.startedAfter with _ | y <;>
    simp [boundLE, ha, hb]
  by_cases h : x < y
  · simp [h, ha, boundLE]; omega
  · simp [h, hb, boundLE]

theorem reduceBroadest_mem (w : BudgetWindow) (ws : List BudgetWindow) :
    reduceBroadest w ws ∈ w :: ws := by
  induction ws generalizing w with
  | nil => simp [reduceBroadest]
  | cons b bs ih =>
    have hstep : reduceBroadest w (b :: bs) = reduceBroadest (pickBroadest w b) bs := rfl
    rw [hstep]
    rcases List.mem_cons.mp (ih (pickBroadest w b)) with h | h
    · rw [h]
      rcases pickBroadest_cases w b with hc | hc <;> rw [hc] <;> simp
    · simp [h]

theorem reduceBroadest_le (w : BudgetWindow) (ws : List BudgetWindow) :
    ∀ v ∈ w :: ws, boundLE (reduceBroadest w ws).startedAfter v.startedAfter := by
  induction ws generalizing w with
  | nil =>
    intro v hv
    simp at hv
    subst hv
    exact boundLE_refl _
  | cons b bs ih =>
    intro v hv
    have hstep : reduceBroadest w (b :: bs) = reduceBroadest (pickBroadest w b) bs := rfl
    rw [hstep]
    have hpick := ih (pickBroadest w b)
    have hhead := hpick (pickBroadest w b) (by simp)
    rcases List.mem_cons.mp hv with hv | hv
    · subst hv
      exact boundLE_trans hhead (pickBroadest_le_left v b)
    · rcases List.mem_cons.mp hv with hv | hv
      · subst hv
        exact boundLE_trans hhead (pickBroadest_le_right w v)
      · exact hpick v (List.mem_cons_of_mem _ hv)

theorem inWindow_mono {w1 w2 : BudgetWindow} (r : Run)
    (h : boundLE w1.startedAfter w2.startedAfter)
    (hr : inWindow w2 r = true) : inWindow w1 r = true := by
  unfold inWindow at *
  rcases h1 : w1.startedAfter with _ | x <;> rcases h2 : w2.startedAfter with _ | y <;>
    rw [h1, h2] at h <;> simp_all [boundLE]
  omega

theorem windowSpendCents_eq_sum (w : BudgetWindow) (runs : List Run) :
    windowSpendCents w runs =
      ((runs.filter (fun r => inWindow w r)).map (fun r => r.totalCostInUsdCents)).sum := by
  have haux : ∀ (l : List Run) (a : ℚ),
      l.foldl (fun acc r => if inWindow w r then acc + r.totalCostInUsdCents else acc) a =
        a + ((l.filter (fun r => inWindow w r)).map (fun r => r.totalCostInUsdCents)).sum := by
    intro l
    induction l with
    | nil => intro a; simp
    | cons r rs ih =>
      intro a
      cases h : inWindow w r
      · rw [List.foldl_cons, if_neg (by simp [h]), ih]
        have hf : List.filter (fun r => inWindow w r) (r :: rs) =
            List.filter (fun r => inWindow w r) rs := by
          simp [List.filter_cons, h]
        rw [hf]
      · rw [List.foldl_cons, if_pos h, ih]
        have hf : List.filter (fun r => inWindow w r) (r :: rs) =
            r :: List.filter (fun r => inWindow w r) rs := by
          simp [List.filter_cons, h]
        rw [hf, List.map_cons, List.sum_cons]
        ring
  simpa [windowSpendCents] using haux runs 0

/-- Filtering the run history to a broader window first does not change any
narrower window's spend. -/
theorem windowSpendCents_filter_broadest (bw w : BudgetWindow) (runs : List Run)
    (hle : boundLE bw.startedAfter w.startedAfter) :
    windowSpendCents w (runs.filter (fun r => inWindow bw r)) = windowSpendCents w runs := by
  rw [windowSpendCents_eq_sum, windowSpendCents_eq_sum]
  congr 1
  congr 1
  rw [List.filter_filter]
  apply List.filter_congr
  intro r _
  cases hr : inWindow w r
  · simp [hr]
  · simp [hr, inWindow_mono r hle hr]

/-- The pre-filter in `isBudgetExceeded` is filtering by membership in the
broadest window. -/
theorem runsInWindow_eq_filter (bw : BudgetWindow) (runs : List Run) :
    (match bw.startedAfter with
      | none => runs
      | some t => runs.filter (fun r => decide (t ≤ r.createdAt))) =
      runs.filter (fun r => inWindow bw r) := by
  rcases h : bw.startedAfter with _ | t
  · simp [inWindow, h]
  · simp only [inWindow, h]

theorem checkWindows_eq_find (runs : List Run) (ws : List BudgetWindow) :
    checkWindows runs ws =
      match ws.find? (fun w => decide (windowSpendCents w runs / 100 ≥ w.limitUsd)) with
      | some w => ⟨true, some w.label, some (windowSpendCents w runs / 100), some w.limitUsd⟩
      | none => ⟨false, none, none, none⟩ := by
  induction ws with
  | nil => rfl
  | cons w ws ih =>
    by_cases h : windowSpendCents w runs / 100 ≥ w.limitUsd
    · rw [List.find?_cons_of_pos _ (by simpa using h)]
      simp [checkWindows, h]
    · rw [List.find?_cons_of_neg _ (by simpa using h)]
      simp only [checkWindows, if_neg h]
      exact ih

theorem find?_congr_mem {α : Type} (l : List α) (p q : α → Bool)
    (h : ∀ x ∈ l, p x = q x) : l.find? p = l.find? q := by
  induction l with
  | nil => rfl
  | cons a as ih =>
    have ha := h a (by simp)
    cases hq : q a
    · rw [List.find?_cons_of_neg _ (by simp [ha, hq]), List.find?_cons_of_neg _ (by simp [hq])]
      exact ih (fun x hx => h x (by simp [hx]))
    · rw [List.find?_cons_of_pos _ (by simp [ha, hq]), List.find?_cons_of_pos _ (by simp [hq])]

/-- Unfolded form of `isBudgetExceeded` when at least one window is
configured. -/
theorem isBudgetExceeded_cons (c : Campaign) (dayStart weekStart monthStart : Int)
    (runs : List Run) (w : BudgetWindow) (ws : List BudgetWindow)
    (hwin : getBudgetWindows c dayStart weekStart monthStart = w :: ws) :
    isBudgetExceeded c dayStart weekStart monthStart runs =
      (if (runs.filter (fun r => inWindow (reduceBroadest w ws) r)).length = 0 then
        ⟨false, none, none, none⟩
      else
        checkWindows (runs.filter (fun r => inWindow (reduceBroadest w ws) r)) (w :: ws)) := by
  unfold isBudgetExceeded
  rw [hwin]
  dsimp only
  rw [runsInWindow_eq_filter]

theorem countConsecutiveFailures_eq_spec (runs : List Run) :
    countConsecutiveFailures runs = specConsecutiveFailures runs := by
  induction runs with
  | nil => rfl
  | cons r rs ih =>
    unfold countConsecutiveFailures specConsecutiveFailures
    by_cases hrun : r.status = "running"
    · rw [if_pos hrun, List.filter_cons_of_neg (by simp [hrun]), ih]
      rfl
    · rw [if_neg hrun, List.filter_cons_of_pos (by simp [hrun])]
      by_cases hfail : r.status = "failed"
      · rw [if_pos hfail, List.takeWhile_cons_of_pos (by simp [hfail]), List.length_cons, ih]
        rfl
      · rw [if_neg hfail, List.takeWhile_cons_of_neg (by simp [hfail]), List.length_nil]

/-- **C3 (amended).** For every campaign with at least one configured
budget limit: the configured windows are scanned in daily, weekly,
monthly, total order; whenever at least one run falls inside some
configured window, the budget check reports exceeded iff some configured
window's summed cost of its in-window runs (runs created at or after the
window's lower bound; every run for the `total` window) reaches that
window's limit (boundary inclusive), and the reported window is the first
exceeded one in that order; but when no run falls inside any configured
window the check reports not exceeded — even if some window's limit is
`≤ 0`, in which case its in-window spend `0` reaches the limit. -/
theorem c3_budget_check_amended (c : Campaign) (dayStart weekStart monthStart : Int)
    (runs : List Run)
    (hw : getBudgetWindows c dayStart weekStart monthStart ≠ []) :
    ((getBudgetWindows c dayStart weekStart monthStart).map (fun v => v.label)).Sublist
      ["daily", "weekly", "monthly", "total"] ∧
    ((∃ r ∈ runs, ∃ v ∈ getBudgetWindows c dayStart weekStart monthStart,
        inWindow v r = true) →
      ((isBudgetExceeded c dayStart weekStart monthStart runs).exceeded = true ↔
        ∃ v ∈ getBudgetWindows c dayStart weekStart monthStart,
          specWindowSpendUsd v runs ≥ v.limitUsd) ∧
      (isBudgetExceeded c dayStart weekStart monthStart runs).which =
        ((getBudgetWindows c dayStart weekStart monthStart).find?
          (fun v => decide (specWindowSpendUsd v runs ≥ v.limitUsd))).map
          (fun v => v.label)) ∧
    ((∀ r ∈ runs, ∀ v ∈ getBudgetWindows c dayStart weekStart monthStart,
        inWindow v r = false) →
      (isBudgetExceeded c dayStart weekStart monthStart runs).exceeded = false) := by
  refine ⟨?_, ?_, ?_⟩
  · rcases c with ⟨d, wk, mo, tot, ml, bi⟩
    cases d <;> cases wk <;> cases mo <;> cases tot <;>
      simp [getBudgetWindows]
  · rcases hwin : getBudgetWindows c dayStart weekStart monthStart with _ | ⟨w, ws⟩
    · exact absurd hwin hw
    intro hex
    obtain ⟨r, hr, v, hv, hvr⟩ := hex
    have hle := reduceBroadest_le w ws v hv
    have hrbw : inWindow (reduceBroadest w ws) r = true := inWindow_mono r hle hvr
    have hne : (runs.filter (fun x => inWindow (reduceBroadest w ws) x)).length ≠ 0 := by
      have hmem : r ∈ runs.filter (fun x => inWindow (reduceBroadest w ws) x) :=
        List.mem_filter.mpr ⟨hr, hrbw⟩
      intro h0
      rw [List.length_eq_zero] at h0
      rw [h0] at hmem
      cases hmem
    have hbe := isBudgetExceeded_cons c dayStart weekStart monthStart runs w ws hwin
    rw [if_neg hne] at hbe
    have hq : ∀ u ∈ w :: ws,
        (decide (windowSpendCents u (runs.filter (fun x => inWindow (reduceBroadest w ws) x))
            / 100 ≥ u.limitUsd)) =
        (decide (specWindowSpendUsd u runs ≥ u.limitUsd)) := by
      intro u hu
      have hsp : windowSpendCents u (runs.filter (fun x => inWindow (reduceBroadest w ws) x)) =
          windowSpendCents u runs :=
        windowSpendCents_filter_broadest (reduceBroadest w ws) u runs
          (reduceBroadest_le w ws u hu)
      have hspec : specWindowSpendUsd u runs = windowSpendCents u runs / 100 := by
        rw [specWindowSpendUsd, windowSpendCents_eq_sum]
      rw [hsp, hspec]
    have hck := checkWindows_eq_find (runs.filter (fun x => inWindow (reduceBroadest w ws) x))
      (w :: ws)
    rw [find?_congr_mem (w :: ws) _ _ hq] at hck
    rw [hck] at hbe
    constructor
    · rw [hbe]
      rcases hf : (w :: ws).find? (fun v => decide (specWindowSpendUsd v runs ≥ v.limitUsd))
        with _ | u
      · simp only [hf]
        rw [List.find?_eq_none] at hf
        constructor
        · intro h; cases h
        · intro ⟨u, hu, hul⟩
          exact absurd (by simpa using hul) (by simpa using hf u hu)
      · simp only [hf]
        constructor
        · intro _
          refine ⟨u, List.mem_of_find?_eq_some hf, ?_⟩
          have := List.find?_some hf
          simpa using this
        · intro _; trivial
    · rw [hbe]
      rcases hf : (w :: ws).find? (fun v => decide (specWindowSpendUsd v runs ≥ v.limitUsd))
        with _ | u <;> simp [hf]
  · rcases hwin : getBudgetWindows c dayStart weekStart monthStart with _ | ⟨w, ws⟩
    · exact absurd hwin hw
    intro hall
    have hbw := reduceBroadest_mem w ws
    have hnil : runs.filter (fun x => inWindow (reduceBroadest w ws) x) = [] := by
      rw [List.filter_eq_nil_iff]
      intro r hr
      simp [hall r hr (reduceBroadest w ws) hbw]
    have hbe := isBudgetExceeded_cons c dayStart weekStart monthStart runs w ws hwin
    rw [hnil] at hbe
    rw [hbe]
    simp

/-- **C3 counterexample.** With a configured daily limit of `0` and an
empty run history, the daily window's in-window spend (`0`) is ≥ its limit
(`0`), yet `isBudgetExceeded` reports not exceeded: the claimed
iff fails because the code short-circuits when no runs fall inside the
broadest window. -/
theorem c3_budget_check_counterexample :
    getBudgetWindows campaignZeroDaily 0 (-604800000) 0 =
      [⟨"daily", some 0, 0⟩] ∧
    specWindowSpendUsd ⟨"daily", some 0, 0⟩ [] ≥ (⟨"daily", some 0, 0⟩ : BudgetWindow).limitUsd ∧
    (isBudgetExceeded campaignZeroDaily 0 (-604800000) 0 []).exceeded = false := by
  refine ⟨rfl, ?_, rfl⟩
  simp [specWindowSpendUsd]

/-- Witness for C3 at a campaign with a daily limit and one in-window run. -/
theorem c3_budget_check_amended_witness :
    ((isBudgetExceeded campaignFiveDaily 0 (-604800000) 0 [runSixHundredCents]).exceeded
        = true ↔
      ∃ v ∈ getBudgetWindows campaignFiveDaily 0 (-604800000) 0,
        specWindowSpendUsd v [runSixHundredCents] ≥ v.limitUsd) ∧
    (isBudgetExceeded campaignFiveDaily 0 (-604800000) 0 [runSixHundredCents]).which =
      ((getBudgetWindows campaignFiveDaily 0 (-604800000) 0).find?
        (fun v => decide (specWindowSpendUsd v [runSixHundredCents] ≥ v.limitUsd))).map
        (fun v => v.label) :=
  (c3_budget_check_amended campaignFiveDaily 0 (-604800000) 0 [runSixHundredCents]
    (by decide)).2.1
    ⟨runSixHundredCents, by decide, ⟨"daily", some 0, 5⟩, by decide, by decide⟩

/-- **C4.** `countConsecutiveFailures` returns the number of consecutive
`failed` entries counted from the newest run backward, skipping `running`
entries and stopping at the first non-failed terminal entry; and — with no
running run and neither budget nor volume exceeded — a streak of exactly 3
refuses admission and auto-stops the campaign, while a streak of exactly 2
admits. -/
theorem c4_consecutive_failures (c : Campaign) (dayStart weekStart monthStart : Int)
    (runs : List Run) (statsOutcome : Except String Nat) :
    countConsecutiveFailures runs = specConsecutiveFailures runs ∧
    (runs.any (fun r => r.status = "running") = false →
      (isBudgetExceeded c dayStart weekStart monthStart runs).exceeded = false →
      (isVolumeExceeded c runs statsOutcome).exceeded = false →
      (countConsecutiveFailures runs = 3 →
        shouldRunCampaignDecision c dayStart weekStart monthStart runs statsOutcome =
          ⟨false, false, true⟩) ∧
      (countConsecutiveFailures runs = 2 →
        shouldRunCampaignDecision c dayStart weekStart monthStart runs statsOutcome =
          ⟨true, false, false⟩)) := by
  refine ⟨countConsecutiveFailures_eq_spec runs, ?_⟩
  intro hrun hbud hvol
  constructor
  · intro h3
    unfold shouldRunCampaignDecision
    rw [hrun]
    simp only [Bool.false_eq_true, if_false]
    rw [if_neg (by simp [hbud]), if_neg (by simp [hvol]),
      if_pos (by rw [h3]; decide)]
  · intro h2
    unfold shouldRunCampaignDecision
    rw [hrun]
    simp only [Bool.false_eq_true, if_false]
    rw [if_neg (by simp [hbud]), if_neg (by simp [hvol]),
      if_neg (by rw [h2]; decide)]

/-- Witness for C4: three consecutive failed runs refuse and stop; two
consecutive failed runs (then a completed one) admit. -/
theorem c4_consecutive_failures_witness :
    shouldRunCampaignDecision campaignTenDaily 100 100 100
      [oldFailedRun, oldFailedRun, oldFailedRun] (Except.ok 0) =
      ⟨false, false, true⟩ ∧
    shouldRunCampaignDecision campaignTenDaily 100 100 100
      [oldFailedRun, oldFailedRun, oldCompletedRun] (Except.ok 0) =
      ⟨true, false, false⟩ := by
  constructor
  · exact ((c4_consecutive_failures campaignTenDaily 100 100 100
      [oldFailedRun, oldFailedRun, oldFailedRun] (Except.ok 0)).2
      (by decide) (by decide) (by decide)).1 (by decide)
  · exact ((c4_consecutive_failures campaignTenDaily 100 100 100
      [oldFailedRun, oldFailedRun, oldCompletedRun] (Except.ok 0)).2
      (by decide) (by decide) (by decide)).2 (by decide)

/-- **C5 (amended).** For a campaign with a non-zero volume cap `L` and a
non-empty brand identifier: when the stats call succeeds reporting served
count `n`, the check reports exceeded iff
`max n (number of completed runs) ≥ L` (boundary inclusive) — so reported
count 5 against `L = 5` is exceeded, and reported count 3 is not exceeded
provided fewer than 5 runs have completed; when the call fails with a
message containing `"Service call failed: 404"`, exceeded is computed from
the completed-run count alone; when it fails with any other error, the
check fails closed (exceeded). -/
theorem c5_volume_check_amended (c : Campaign) (L : Nat) (brand : String)
    (runs : List Run)
    (hcL : c.maxLeads = some L) (hcb : c.brandId = some brand)
    (hL : L ≠ 0) (hb : brand ≠ "") :
    (∀ n : Nat, (isVolumeExceeded c runs (Except.ok n)).exceeded =
      decide (Nat.max n ((runs.filter (fun r => r.status = "completed")).length) ≥ L)) ∧
    (∀ e : String, includesStr e "Service call failed: 404" = true →
      (isVolumeExceeded c runs (Except.error e)).exceeded =
        decide ((runs.filter (fun r => r.status = "completed")).length ≥ L)) ∧
    (∀ e : String, includesStr e "Service call failed: 404" = false →
      (isVolumeExceeded c runs (Except.error e)).exceeded = true) := by
  refine ⟨?_, ?_, ?_⟩
  · intro n
    unfold isVolumeExceeded
    rw [hcL, hcb]
    dsimp only
    rw [if_neg (by simp [hL, hb])]
    by_cases h : Nat.max n ((runs.filter (fun r => r.status = "completed")).length) ≥ L
    · rw [if_pos h]
      simp [h]
    · rw [if_neg h]
      simp [h]
  · intro e he
    unfold isVolumeExceeded
    rw [hcL, hcb]
    dsimp only
    rw [if_neg (by simp [hL, hb])]
    rw [if_pos he]
    by_cases h : (runs.filter (fun r => r.status = "completed")).length ≥ L
    · rw [if_pos h]
      simp [h]
    · rw [if_neg h]
      simp [h]
  · intro e he
    unfold isVolumeExceeded
    rw [hcL, hcb]
    dsimp only
    rw [if_neg (by simp [hL, hb])]
    rw [if_neg (by simp [he])]

/-- **C5 counterexample.** The claim says a successful stats call
reporting served count 3 against `maxLeads = 5` yields exceeded = false;
but with 5 completed runs in the history the code takes
`Math.max(stats, completedRunCount) = 5 ≥ 5` and reports exceeded = true. -/
theorem c5_volume_check_counterexample :
    (isVolumeExceeded campaignCapFive fiveCompletedRuns (Except.ok 3)).exceeded = true := by
  decide

/-- Witness for C5 with no completed runs: reported count 5 is exceeded
(inclusive boundary), reported count 3 is not. -/
theorem c5_volume_check_amended_witness :
    (isVolumeExceeded campaignCapFive [] (Except.ok 5)).exceeded = true ∧
    (isVolumeExceeded campaignCapFive [] (Except.ok 3)).exceeded = false := by
  have h := c5_volume_check_amended campaignCapFive 5 "b" [] rfl rfl
    (by decide) (by decide)
  constructor
  · rw [h.1 5]; decide
  · rw [h.1 3]; decide

/-- **C10.** For every campaign with none of the four budget limits
configured, the budget check fails closed: it returns exceeded with the
window labelled `"total"` (spend 0, limit 0); and consequently — whenever
no run is still running — the admission decision refuses the run *and*
requests the campaign be stopped, exactly as for a genuinely exhausted
lifetime budget. -/
theorem c10_no_budget_configured_stops_campaign (c : Campaign)
    (hd : c.maxBudgetDailyUsd = none) (hwk : c.maxBudgetWeeklyUsd = none)
    (hmo : c.maxBudgetMonthlyUsd = none) (htot : c.maxBudgetTotalUsd = none)
    (dayStart weekStart monthStart : Int) (runs : List Run)
    (statsOutcome : Except String Nat) :
    isBudgetExceeded c dayStart weekStart monthStart runs =
      ⟨true, some "total", some 0, some 0⟩ ∧
    (runs.any (fun r => r.status = "running") = false →
      shouldRunCampaignDecision c dayStart weekStart monthStart runs statsOutcome =
        ⟨false, false, true⟩) := by
  have hwin : getBudgetWindows c dayStart weekStart monthStart = [] := by
    unfold getBudgetWindows
    rw [hd, hwk, hmo, htot]
    rfl
  have hbe : isBudgetExceeded c dayStart weekStart monthStart runs =
      ⟨true, some "total", some 0, some 0⟩ := by
    unfold isBudgetExceeded
    rw [hwin]
  refine ⟨hbe, ?_⟩
  intro hrun
  unfold shouldRunCampaignDecision
  rw [hrun]
  simp only [Bool.false_eq_true, if_false]
  rw [if_pos (by rw [hbe])]
  rw [hbe]
  simp

/-- Witness for C10: a campaign with no budget fields and an empty run
history is refused and stopped. -/
theorem c10_no_budget_configured_stops_campaign_witness :
    isBudgetExceeded ⟨none, none, none, none, none, none⟩ 0 0 0 [] =
      ⟨true, some "total", some 0, some 0⟩ ∧
    shouldRunCampaignDecision ⟨none, none, none, none, none, none⟩ 0 0 0 []
      (Except.ok 0) = ⟨false, false, true⟩ := by
  have h := c10_no_budget_configured_stops_campaign ⟨none, none, none, none, none, none⟩
    rfl rfl rfl rfl 0 0 0 [] (Except.ok 0)
  exact ⟨h.1, h.2 (by decide)⟩


/-- Witness for C2 at the degenerate statistics `⟨0, 0, 0⟩` (zero leads
found): the run is finalized as `"failed"`. -/
theorem c2_finalize_status_witness : endRunStatus ⟨0, 0, 0⟩ = "failed" :=
  (c2_finalize_status ⟨0, 0, 0⟩).2.2.2 rfl rfl
